import Mathlib

/-!
# Verification of the Pilot-Tennis-Coach video-analytics pipeline

Shallow embedding, in Lean 4, of the pure algorithmic core of the
repository's ML pipeline:

* `AnalyticsEngine.identify_rallies`
  (`services/ml-pipeline/app/processors/analytics_engine.py`),
* `EnhancedAnalyticsEngine.identify_rallies` and `_finalize_rally`
  (`services/ml-pipeline/app/processors/enhanced_analytics_engine.py`),
* `EnhancedPlayerTracker` state updates, `_assign_player_number` and
  `get_player_stats`
  (`services/ml-pipeline/app/processors/enhanced_player_tracker.py`),
* `EnhancedBallTracker.track`, `get_detection_rate` and the Kalman filter
  (`services/ml-pipeline/app/processors/enhanced_ball_tracker.py`),
* `HighlightsGenerator.identify_highlights`
  (`services/ml-pipeline/app/services/highlights_generator.py`).

Python floats are modelled by `ℚ` (every timestamp and coordinate the
theorems evaluate is exactly representable and only `+ - * / < ≤ max` are
applied to them), Python ints by `ℕ`, `None`-able attributes by `Option`,
and Python dicts by insertion-ordered association lists.  The external ML
capabilities (YOLO object detection, pose estimation, colour heuristics)
are black boxes whose per-frame results are inputs of the embedded state
transitions, exactly as the spec treats them ("capabilities consumed").
-/

/-! ## Shot data model

`SimpleShot` (video_processor_simple.py, lines 13-23) and the classifier
`Shot` (enhanced_shot_classifier.py, lines 24-35), merged: the rally
segmenters only read the attributes below.  `serve_side` is `None` for
non-serves; `outcome` is `None` when undetermined. -/

structure Shot where
  shot_id : ℕ
  player_number : ℕ
  timestamp : ℚ
  shot_type : String
  outcome : Option String
  serve_side : Option String
  is_point_start : Bool
  deriving Repr, DecidableEq

/-- Python truthiness of an `Optional[str]` attribute: `None` and the empty
string are falsy. -/
def strTruthy : Option String → Bool
  | none => false
  | some s => s ≠ ""

/-! ## AnalyticsEngine.identify_rallies (analytics_engine.py, lines 12-162) -/

namespace AnalyticsEngine

/-- The `current_rally` dict while still open: its `"shots"` list plus the
keys that may already have been written by the terminal-outcome block
(lines 131-141) before the rally is closed. -/
structure OpenRally where
  start_time : ℚ
  shots : List Shot
  player1_shots : ℕ
  player2_shots : ℕ
  end_time : Option ℚ
  winner_player : Option ℕ
  ended_by : Option String
  deriving Repr, DecidableEq

/-- A finalized rally dict, after `del current_rally["shots"]`. -/
structure Rally where
  start_time : ℚ
  end_time : ℚ
  duration : ℚ
  shot_count : ℕ
  player1_shots : ℕ
  player2_shots : ℕ
  winner_player : Option ℕ
  ended_by : String
  deriving Repr, DecidableEq

/-- Winner determination used by every close path (lines 64-69, 112-117,
150-155): majority of shot counts, `None` on a tie. -/
def majorityWinner (p1 p2 : ℕ) : Option ℕ :=
  if p1 > p2 then some 1 else if p2 > p1 then some 2 else none

/-- Closing an open rally (lines 58-70, 108-119, 145-158): `end_time` is the
last shot's timestamp, `shot_count` is `len(shots)`, `winner_player` is
recomputed by majority, `ended_by` is the caller's value.  `shots` is
nonempty at every call site (rallies are created with one shot and only
appended to); the `getD` default is unreachable. -/
def finalizeRally (r : OpenRally) (eb : String) : Rally :=
  let endT := ((r.shots.getLast?).map Shot.timestamp).getD r.start_time
  { start_time := r.start_time
    end_time := endT
    duration := endT - r.start_time
    shot_count := r.shots.length
    player1_shots := r.player1_shots
    player2_shots := r.player2_shots
    winner_player := majorityWinner r.player1_shots r.player2_shots
    ended_by := eb }

/-- The guarded close used at a new point (lines 56-73) and at stream end
(lines 144-160): the rally is only appended when its `"shots"` list is
nonempty (`if "shots" in current_rally and current_rally["shots"]`). -/
def closeGuarded (rallies : List Rally) (r : OpenRally) (eb : String) :
    List Rally :=
  if r.shots.isEmpty then rallies else rallies ++ [finalizeRally r eb]

/-- Opening a new rally from a shot (lines 78-83 and 124-128). -/
def newRally (s : Shot) : OpenRally :=
  { start_time := s.timestamp
    shots := [s]
    player1_shots := if s.player_number = 1 then 1 else 0
    player2_shots := if s.player_number = 2 then 1 else 0
    end_time := none
    winner_player := none
    ended_by := none }

/-- Appending a continuing shot (lines 101-105): note the bare `else`, every
non-player-1 shot increments `player2_shots`. -/
def appendShot (r : OpenRally) (s : Shot) : OpenRally :=
  if s.player_number = 1 then
    { r with shots := r.shots ++ [s], player1_shots := r.player1_shots + 1 }
  else
    { r with shots := r.shots ++ [s], player2_shots := r.player2_shots + 1 }

/-- Loop state: accumulated rallies, the open rally, the serve tracking
variables, and the previous shot (`shots[i-1]`, used by the second-serve
test at lines 90-97). -/
structure SegState where
  rallies : List Rally
  current : Option OpenRally
  prevServeSide : Option String
  prevServer : Option ℕ
  prevShot : Option Shot
  deriving Repr, DecidableEq

def initSeg : SegState :=
  { rallies := [], current := none, prevServeSide := none,
    prevServer := none, prevShot := none }

/-- Lines 30-53: compute `is_new_point` and the updated serve-tracking
variables.  The tracking variables are updated only in the
serve-with-truthy-side `elif` branch (lines 45-47). -/
def newPointFlag (st : SegState) (shot : Shot) :
    Bool × Option String × Option ℕ :=
  if shot.is_point_start then
    (true, st.prevServeSide, st.prevServer)
  else if shot.shot_type = "serve" ∧ strTruthy shot.serve_side then
    match st.prevServeSide, st.prevServer with
    | some ps, some pv =>
        (decide (shot.serve_side ≠ some ps ∨ shot.player_number ≠ pv),
         shot.serve_side, some shot.player_number)
    | _, _ => (true, shot.serve_side, some shot.player_number)
  else if shot.shot_type = "serve" then
    match st.current with
    | some r =>
        match r.shots.getLast? with
        | some last =>
            (decide (shot.timestamp - last.timestamp > 10),
             st.prevServeSide, st.prevServer)
        | none => (false, st.prevServeSide, st.prevServer)
    | none => (false, st.prevServeSide, st.prevServer)
  else (false, st.prevServeSide, st.prevServer)

/-- Lines 90-97: a serve directly following a serve by the same player from
the same side (`shot.serve_side == shots[i-1].serve_side` compares the
attribute values, `None == None` included). -/
def isSecondServe (shot : Shot) (prev : Option Shot) : Bool :=
  match prev with
  | some p =>
      shot.shot_type = "serve" ∧ p.shot_type = "serve" ∧
      p.player_number = shot.player_number ∧ shot.serve_side = p.serve_side
  | none => false

/-- Lines 84-129: continue the open rally, or close it as `"play_stopped"`
(unguarded close, lines 108-121) and open a new one.  `shots` of an open
rally is nonempty by construction, so the `getD` default is unreachable
(Python would raise on `[-1]` of an empty list). -/
def continuePhase (rallies : List Rally) (r : OpenRally) (shot : Shot)
    (prev : Option Shot) : List Rally × OpenRally :=
  let lastTs := ((r.shots.getLast?).map Shot.timestamp).getD 0
  if shot.timestamp - lastTs < 5 ∨ isSecondServe shot prev then
    (rallies, appendShot r shot)
  else
    (rallies ++ [finalizeRally r "play_stopped"], newRally shot)

/-- Lines 131-141: a terminal outcome writes `end_time`, `winner_player` and
`ended_by` on the still-open rally (it does not close it).  Winner/ace
attributes the shooter, out/net the opponent (`2 if player_number == 1
else 1`). -/
def terminalPhase (cur : Option OpenRally) (shot : Shot) :
    Option OpenRally :=
  match shot.outcome with
  | some oc =>
      if oc = "out" ∨ oc = "net" ∨ oc = "winner" ∨ oc = "ace" then
        match cur with
        | some r =>
            if oc = "winner" ∨ oc = "ace" then
              some { r with end_time := some shot.timestamp,
                            winner_player := some shot.player_number,
                            ended_by := some "winner" }
            else
              some { r with end_time := some shot.timestamp,
                            winner_player :=
                              some (if shot.player_number = 1 then 2 else 1),
                            ended_by := some "error" }
        | none => none
      else cur
  | none => cur

/-- Lines 55-74: on a new point, close the open rally (guarded) as
`"point_end"` and clear it. -/
def closePhase (st : SegState) (isNew : Bool) :
    List Rally × Option OpenRally :=
  if isNew then
    match st.current with
    | some r => (closeGuarded st.rallies r "point_end", none)
    | none => (st.rallies, none)
  else (st.rallies, st.current)

/-- Lines 76-129: open a new rally from the shot if none is open, else the
continue-or-play-stopped decision of `continuePhase`. -/
def contPhase (rc : List Rally × Option OpenRally) (shot : Shot)
    (prev : Option Shot) : List Rally × OpenRally :=
  match rc.2 with
  | none => (rc.1, newRally shot)
  | some r => continuePhase rc.1 r shot prev

/-- One iteration of the `for i, shot in enumerate(shots)` loop
(lines 29-141). -/
def stepShot (st : SegState) (shot : Shot) : SegState :=
  let np := newPointFlag st shot
  let ac := contPhase (closePhase st np.1) shot st.prevShot
  { rallies := ac.1,
    current := terminalPhase (some ac.2) shot,
    prevServeSide := np.2.1, prevServer := np.2.2, prevShot := some shot }

/-- `AnalyticsEngine.identify_rallies` (lines 12-162): the whole loop
followed by the guarded final close, whose `ended_by` is kept if the
terminal-outcome block already wrote one (`if "ended_by" not in
current_rally`, line 157), `"match_end"` otherwise. -/
def identify_rallies (shots : List Shot) : List Rally :=
  let st := shots.foldl stepShot initSeg
  match st.current with
  | some r => closeGuarded st.rallies r (r.ended_by.getD "match_end")
  | none => st.rallies

end AnalyticsEngine

/-! ## EnhancedAnalyticsEngine.identify_rallies
(enhanced_analytics_engine.py, lines 30-119) -/

namespace EnhancedAnalyticsEngine

/-- The open rally dict (lines 48-54, 67-73). -/
structure EOpenRally where
  start_time : ℚ
  start_shot_id : ℕ
  shots : List Shot
  player1_shots : ℕ
  player2_shots : ℕ
  deriving Repr, DecidableEq

/-- A rally finalized by `_finalize_rally` (`shots` replaced by
`shot_ids`). -/
structure ERally where
  start_time : ℚ
  start_shot_id : ℕ
  end_time : ℚ
  duration : ℚ
  shot_count : ℕ
  player1_shots : ℕ
  player2_shots : ℕ
  winner_player : Option ℕ
  ended_by : String
  shot_ids : List ℕ
  deriving Repr, DecidableEq

/-- `_finalize_rally` (lines 88-119): `end_time` from the last shot,
majority winner, `ended_by` from the last shot's outcome
(`"error"`/`"winner"`/`"unknown"`), `shot_ids` from the shots.  The
`if not rally["shots"]` early return is unreachable (every open rally holds
at least one shot); the `getD`/`"unknown"` defaults cover that dead case. -/
def finalize_rally (r : EOpenRally) : ERally :=
  let endT := ((r.shots.getLast?).map Shot.timestamp).getD r.start_time
  let eb :=
    match r.shots.getLast? with
    | some last =>
        if last.outcome = some "error" then "error"
        else if last.outcome = some "winner" then "winner"
        else "unknown"
    | none => "unknown"
  { start_time := r.start_time
    start_shot_id := r.start_shot_id
    end_time := endT
    duration := endT - r.start_time
    shot_count := r.shots.length
    player1_shots := r.player1_shots
    player2_shots := r.player2_shots
    winner_player := AnalyticsEngine.majorityWinner r.player1_shots r.player2_shots
    ended_by := eb
    shot_ids := r.shots.map Shot.shot_id }

/-- One iteration of the `for i, shot in enumerate(shots)` loop
(lines 45-79).  A first rally starts with both counts 0 (lines 48-54); a
rally restarted after a ≥5s gap starts with the matching count already 1
(lines 67-73); in both cases the unconditional count update at lines 75-79
then increments the shooting player's count (bare `else`: any
non-player-1 shot increments `player2_shots`). -/
def eStep (st : List ERally × Option EOpenRally) (shot : Shot) :
    List ERally × Option EOpenRally :=
  let next : List ERally × EOpenRally :=
    match st.2 with
    | none =>
        (st.1,
         { start_time := shot.timestamp, start_shot_id := shot.shot_id,
           shots := [shot], player1_shots := 0, player2_shots := 0 })
    | some r =>
        let lastTs := ((r.shots.getLast?).map Shot.timestamp).getD 0
        if shot.timestamp - lastTs < 5 then
          (st.1, { r with shots := r.shots ++ [shot] })
        else
          (st.1 ++ [finalize_rally r],
           { start_time := shot.timestamp, start_shot_id := shot.shot_id,
             shots := [shot],
             player1_shots := if shot.player_number = 1 then 1 else 0,
             player2_shots := if shot.player_number = 2 then 1 else 0 })
  let cur :=
    if shot.player_number = 1 then
      { next.2 with player1_shots := next.2.player1_shots + 1 }
    else
      { next.2 with player2_shots := next.2.player2_shots + 1 }
  (next.1, some cur)

/-- `EnhancedAnalyticsEngine.identify_rallies` (lines 30-86): the loop over
the shot stream followed by the finalization of the last open rally. -/
def identify_rallies (shots : List Shot) : List ERally :=
  if shots = [] then []
  else
    let st := shots.foldl eStep ([], none)
    match st.2 with
    | some r => st.1 ++ [finalize_rally r]
    | none => st.1

end EnhancedAnalyticsEngine

/-! ## EnhancedPlayerTracker (enhanced_player_tracker.py)

State transitions of `track` (lines 74-154), the persistent numbering rule
`_assign_player_number` (lines 156-180) and the aggregation
`get_player_stats` (lines 269-294).  The external YOLOv8 detector/tracker
is a black box: per-frame it supplies a list of raw boxes (COCO class,
optional tracking id, xyxy bbox, confidence), which the embedding takes as
input.  Python dicts become insertion-ordered association lists;
`np.sqrt` becomes `ratSqrt` below. -/

/-- First-match lookup in an insertion-ordered association list
(`d[k]` / `k in d` of a Python dict whose keys are unique). -/
def alookup {α : Type} : List (ℕ × α) → ℕ → Option α
  | [], _ => none
  | (k, v) :: rest, tid => if k = tid then some v else alookup rest tid

/-- Python dict assignment `d[k] = v`: overwrite in place if the key is
present, append otherwise (insertion order preserved). -/
def aset {α : Type} : List (ℕ × α) → ℕ → α → List (ℕ × α)
  | [], k, v => [(k, v)]
  | (k', v') :: rest, k, v =>
      if k' = k then (k, v) :: rest else (k', v') :: aset rest k v

/-- Python dict deletion `del d[k]`. -/
def adel {α : Type} (m : List (ℕ × α)) (k : ℕ) : List (ℕ × α) :=
  m.filter fun p => p.1 ≠ k

/-- Square root on `ℚ`, modelling `np.sqrt`.  It is exact on every input
the theorems below evaluate it on (squared distances whose numerator and
denominator are perfect squares); no claim proved here depends on its
value elsewhere. -/
def ratSqrt (q : ℚ) : ℚ := (Nat.sqrt q.num.toNat : ℚ) / (Nat.sqrt q.den : ℚ)

namespace EnhancedPlayerTracker

/-- An xyxy bounding box (`box.xyxy[0]`). -/
structure BBox where
  x1 : ℚ
  y1 : ℚ
  x2 : ℚ
  y2 : ℚ
  deriving Repr, DecidableEq

/-- `PlayerDetection` (lines 25-36); `pose_keypoints` (the output of the
external pose estimator, unused by every consumer modelled here) is
omitted. -/
structure PlayerDetection where
  player_id : ℕ
  track_id : ℕ
  timestamp : ℚ
  bbox : BBox
  center : ℚ × ℚ
  confidence : ℚ
  speed : Option ℚ
  distance_traveled : ℚ
  deriving Repr, DecidableEq

/-- The tracker's mutable state (lines 68-72). -/
structure TrackerState where
  tracks : List (ℕ × List PlayerDetection)
  player_mapping : List (ℕ × ℕ)
  next_track_id : ℕ
  last_positions : List (ℕ × (ℚ × ℚ))
  deriving Repr, DecidableEq

def initTracker : TrackerState :=
  { tracks := [], player_mapping := [], next_track_id := 1,
    last_positions := [] }

/-- One raw person-candidate box reported by the external YOLOv8 tracker
for a frame. -/
structure RawBox where
  cls : ℕ
  id : Option ℕ
  bbox : BBox
  conf : ℚ
  deriving Repr, DecidableEq

/-- A frame observation: timestamp, frame width (`frame.shape[1]`) and the
detector's boxes. -/
structure PFrame where
  timestamp : ℚ
  width : ℚ
  boxes : List RawBox
  deriving Repr, DecidableEq

/-- `_get_bbox_center` (lines 182-186). -/
def get_bbox_center (b : BBox) : ℚ × ℚ :=
  ((b.x1 + b.x2) / 2, (b.y1 + b.y2) / 2)

/-- `_calculate_speed` (lines 188-212): `None` unless the track has a last
position and a nonempty history and a positive time step; otherwise the
pixel displacement scaled by 0.05 m/px over the elapsed time. -/
def calculate_speed (st : TrackerState) (tid : ℕ) (c : ℚ × ℚ) (ts : ℚ) :
    Option ℚ :=
  match alookup st.last_positions tid with
  | none => none
  | some lastC =>
      match ((alookup st.tracks tid).getD []).getLast? with
      | none => none
      | some lastDet =>
          let dt := ts - lastDet.timestamp
          if dt ≤ 0 then none
          else
            let dx := c.1 - lastC.1
            let dy := c.2 - lastC.2
            some (ratSqrt (dx ^ 2 + dy ^ 2) * (1 / 20) / dt)

/-- `_update_distance` (lines 214-226): 0 for a first observation, else the
pixel displacement from the last position scaled by 0.05 m/px. -/
def update_distance (st : TrackerState) (tid : ℕ) (c : ℚ × ℚ) : ℚ :=
  match alookup st.last_positions tid with
  | none => 0
  | some lastC =>
      ratSqrt ((c.1 - lastC.1) ^ 2 + (c.2 - lastC.2) ^ 2) * (1 / 20)

/-- `_assign_player_number` (lines 156-180): an already-mapped track keeps
its number; a fresh track gets 1 on the left half of the frame, 2 on the
right, flipped when the single already-assigned number would collide. -/
def assign_player_number (m : List (ℕ × ℕ)) (tid : ℕ) (b : BBox)
    (imageWidth : ℚ) : ℕ × List (ℕ × ℕ) :=
  let centerX := (b.x1 + b.x2) / 2
  match alookup m tid with
  | some n => (n, m)
  | none =>
      let pn := if centerX < imageWidth / 2 then 1 else 2
      let pn :=
        match (m.map Prod.snd).dedup with
        | [other] => if pn = other then (if other = 1 then 2 else 1) else pn
        | _ => pn
      (pn, aset m tid pn)

/-- Body of the per-box loop of `track` (lines 97-143), threading the state,
the set of track ids seen this frame, and the output detections. -/
def processBox (ts width : ℚ)
    (acc : TrackerState × List ℕ × List PlayerDetection) (box : RawBox) :
    TrackerState × List ℕ × List PlayerDetection :=
  if box.cls ≠ 0 then acc
  else
    let withId : ℕ × TrackerState :=
      match box.id with
      | some t => (t, acc.1)
      | none => (acc.1.next_track_id,
                 { acc.1 with next_track_id := acc.1.next_track_id + 1 })
    let tid := withId.1
    let st :=
      if (alookup withId.2.tracks tid).isNone then
        { withId.2 with tracks := aset withId.2.tracks tid [] }
      else withId.2
    let center := get_bbox_center box.bbox
    let speed := calculate_speed st tid center ts
    let dist := update_distance st tid center
    let assigned := assign_player_number st.player_mapping tid box.bbox width
    let hist := (alookup st.tracks tid).getD []
    let dtrav :=
      match hist.getLast? with
      | some lastDet => lastDet.distance_traveled + dist
      | none => dist
    let det : PlayerDetection :=
      { player_id := assigned.1, track_id := tid, timestamp := ts,
        bbox := box.bbox, center := center, confidence := box.conf,
        speed := speed, distance_traveled := dtrav }
    ({ st with tracks := aset st.tracks tid (hist ++ [det]),
               player_mapping := assigned.2,
               last_positions := aset st.last_positions tid center },
     acc.2.1 ++ [tid], acc.2.2 ++ [det])

/-- Body of the stale-track loop (lines 147-152): drop the track's history
and last position when it has been silent for more than 1 second
(`last_time` is 0 for an empty history) — `player_mapping` is untouched. -/
def evictOne (ts : ℚ) (st : TrackerState) (tid : ℕ) : TrackerState :=
  let lastTime :=
    match ((alookup st.tracks tid).getD []).getLast? with
    | some d => d.timestamp
    | none => 0
  if ts - lastTime > 1 then
    { st with tracks := adel st.tracks tid,
              last_positions := adel st.last_positions tid }
  else st

/-- Stale-track removal (lines 145-152): every track not seen this frame
and silent for more than 1 second is evicted. -/
def evictStale (st : TrackerState) (curIds : List ℕ) (ts : ℚ) :
    TrackerState :=
  let stale := (st.tracks.map Prod.fst).filter fun tid => tid ∉ curIds
  stale.foldl (evictOne ts) st

/-- `track` for one frame (lines 74-154): process the detector's boxes,
then evict stale tracks.  (When the detection model is absent the method
returns `[]` without touching state, i.e. a frame with no boxes.) -/
def track (st : TrackerState) (f : PFrame) :
    TrackerState × List PlayerDetection :=
  let processed := f.boxes.foldl (processBox f.timestamp f.width) (st, [], [])
  (evictStale processed.1 processed.2.1 f.timestamp, processed.2.2)

/-- A run of the tracker over a sequence of frames. -/
def runTracker (st : TrackerState) (frames : List PFrame) : TrackerState :=
  frames.foldl (fun st f => (track st f).1) st

/-- `max(xs)` of a nonempty Python list (the `[]` case is unreachable at
the call site, which guards on nonemptiness). -/
def pyMax : List ℚ → ℚ
  | [] => 0
  | h :: t => t.foldl max h

/-- The dict returned by `get_player_stats` (lines 290-294). -/
structure PlayerStats where
  total_distance_meters : ℚ
  max_speed_mps : ℚ
  avg_speed_mps : ℚ
  deriving Repr, DecidableEq

/-- Body of the `get_player_stats` loop (lines 277-286): for a
`(track_id, player_id)` entry mapped to the requested player whose track
is still present in `tracks` and nonempty, overwrite the accumulators
(the code assigns, it does not sum across tracks). -/
def statsStep (st : TrackerState) (player_number : ℕ)
    (acc : ℚ × ℚ × ℚ × ℕ) (p : ℕ × ℕ) : ℚ × ℚ × ℚ × ℕ :=
  if p.2 = player_number then
    match alookup st.tracks p.1 with
    | some tr =>
        if tr.isEmpty then acc
        else
          let td :=
            match tr.getLast? with
            | some d => d.distance_traveled
            | none => acc.1
          let speeds := tr.filterMap PlayerDetection.speed
          if speeds.isEmpty then (td, acc.2.1, acc.2.2.1, acc.2.2.2)
          else (td, pyMax speeds, speeds.foldl (· + ·) 0, speeds.length)
    | none => acc
  else acc

/-- `get_player_stats` (lines 269-294): walk `player_mapping`, then average
the collected speeds. -/
def get_player_stats (st : TrackerState) (player_number : ℕ) : PlayerStats :=
  let acc :=
    st.player_mapping.foldl (statsStep st player_number)
      ((0 : ℚ), (0 : ℚ), (0 : ℚ), (0 : ℕ))
  { total_distance_meters := acc.1
    max_speed_mps := acc.2.1
    avg_speed_mps :=
      if acc.2.2.2 > 0 then acc.2.2.1 / (acc.2.2.2 : ℚ) else 0 }

end EnhancedPlayerTracker

/-! ## EnhancedBallTracker (enhanced_ball_tracker.py)

The Kalman filter (lines 32-91) and the `track` state transition
(lines 157-224), with `get_detection_rate` (lines 360-364) and
`get_trajectory` (lines 366-368).  The two detection methods
(`_detect_with_yolo`, `_detect_with_color`) call external models over the
pixel data, so their per-frame results — an optional position with a
confidence — are inputs of the embedded transition.  The filter's `float32`
arithmetic is carried out over `ℚ`; no theorem below depends on the
numeric values it produces. -/

namespace EnhancedBallTracker

abbrev Mat (m n : ℕ) := Matrix (Fin m) (Fin n) ℚ

/-- Filter state: `[x, y, vx, vy]` as a column vector plus the error
covariance (lines 34-60). -/
structure KalmanFilter where
  state : Mat 4 1
  error_cov : Mat 4 4

/-- State transition matrix `F` (constant velocity model, lines 46-51). -/
def F : Mat 4 4 :=
  Matrix.of ![![1, 0, 1, 0], ![0, 1, 0, 1], ![0, 0, 1, 0], ![0, 0, 0, 1]]

/-- Measurement matrix `H` (lines 54-57). -/
def H : Mat 2 4 := Matrix.of ![![1, 0, 0, 0], ![0, 1, 0, 0]]

/-- `np.eye(4) * 0.03` (line 40). -/
def processNoise : Mat 4 4 := (3 / 100 : ℚ) • 1

/-- `np.eye(2) * 10` (line 43). -/
def measurementNoise : Mat 2 2 := (10 : ℚ) • 1

/-- Initial filter: zero state, `np.eye(4) * 1000` covariance
(lines 36-37). -/
def initKalman : KalmanFilter := { state := 0, error_cov := (1000 : ℚ) • 1 }

/-- `KalmanFilter.predict` (lines 62-66). -/
def predict (kf : KalmanFilter) : KalmanFilter × (ℚ × ℚ) :=
  let state := F * kf.state
  let cov := F * kf.error_cov * F.transpose + processNoise
  ({ state := state, error_cov := cov }, (state 0 0, state 1 0))

/-- `np.linalg.inv` on the 2×2 innovation covariance (always nonsingular
there: the covariance stays positive semidefinite and `+10·I` makes the
determinant positive; division by a zero determinant is the unreachable
`ℚ`-default). -/
def inv2 (m : Mat 2 2) : Mat 2 2 :=
  let d := m 0 0 * m 1 1 - m 0 1 * m 1 0
  Matrix.of ![![m 1 1 / d, -(m 0 1) / d], ![-(m 1 0) / d, m 0 0 / d]]

/-- `KalmanFilter.update` (lines 68-87). -/
def update (kf : KalmanFilter) (meas : ℚ × ℚ) : KalmanFilter × (ℚ × ℚ) :=
  let z : Mat 2 1 := Matrix.of ![![meas.1], ![meas.2]]
  let y := z - H * kf.state
  let S := H * kf.error_cov * H.transpose + measurementNoise
  let K := kf.error_cov * H.transpose * inv2 S
  let state := kf.state + K * y
  let cov := ((1 : Mat 4 4) - K * H) * kf.error_cov
  ({ state := state, error_cov := cov }, (state 0 0, state 1 0))

/-- `KalmanFilter.get_velocity` (lines 89-91). -/
def get_velocity (kf : KalmanFilter) : ℚ × ℚ := (kf.state 2 0, kf.state 3 0)

/-- `BallDetection` (lines 19-29). -/
structure BallDetection where
  timestamp : ℚ
  position : ℚ × ℚ
  raw_position : ℚ × ℚ
  confidence : ℚ
  velocity : Option (ℚ × ℚ)
  speed_mps : Option ℚ
  is_bounce : Bool
  is_detected : Bool

/-- The tracker's mutable state (lines 99-155): the constructor parameter
`pixel_to_meter_ratio` (default 0.05), whether a detection model could be
loaded, the filter, and the three history/counter fields of
lines 152-155. -/
structure BallTrackerState where
  pixel_to_meter_ratio : ℚ
  has_model : Bool
  kalman_filter : KalmanFilter
  trajectory_history : List BallDetection
  detection_count : ℕ
  total_frames : ℕ

def initBallTracker (hasModel : Bool) : BallTrackerState :=
  { pixel_to_meter_ratio := 1 / 20, has_model := hasModel,
    kalman_filter := initKalman, trajectory_history := [],
    detection_count := 0, total_frames := 0 }

/-- The external detection results for one frame: what
`_detect_with_yolo` (lines 226-275) and `_detect_with_color`
(lines 277-326) would return on its pixels. -/
structure FrameObs where
  timestamp : ℚ
  yolo : Option ((ℚ × ℚ) × ℚ)
  color : Option ((ℚ × ℚ) × ℚ)

/-- Lines 174-186 of `track`: try the YOLO detection when a model is
loaded, fall back to the colour heuristic when it yields nothing; the
per-frame results of both external detectors are inputs. -/
def senseBall (st : BallTrackerState) (obs : FrameObs) :
    Option ((ℚ × ℚ) × ℚ) :=
  match (if st.has_model then obs.yolo else none) with
  | some pc => some pc
  | none => obs.color

/-- `_calculate_speed_mps` (lines 328-339): pixel-per-frame speed × 30 fps
× the pixel-to-meter ratio. -/
def calculate_speed_mps (ratio : ℚ) (v : ℚ × ℚ) : ℚ :=
  ratSqrt (v.1 ^ 2 + v.2 ^ 2) * 30 * ratio

/-- `_detect_bounce` (lines 341-358): a sign reversal of the vertical
velocity against `trajectory_history[-2]` with a change above 30. -/
def detect_bounce (hist : List BallDetection) (v : Option (ℚ × ℚ)) : Bool :=
  match v with
  | none => false
  | some v =>
      if hist.length < 2 then false
      else
        match hist.drop (hist.length - 2) with
        | prev :: _ =>
            match prev.velocity with
            | none => false
            | some pv =>
                decide (((pv.2 > 0 ∧ v.2 < 0) ∨ (pv.2 < 0 ∧ v.2 > 0)) ∧
                        |v.2 - pv.2| > 30)
        | [] => false

/-- `track` for one frame (lines 157-224): count the frame; try YOLO, then
the colour fallback (so at most one of the two increments
`detection_count`); Kalman-update on a detection, Kalman-predict
otherwise (confidence forced to 0.5); build the `BallDetection` (its
`velocity` is always the filter's tuple, hence `speed_mps` is always
computed — a tuple is truthy in Python); append it to the history and
truncate the history to the last 60 entries. -/
def track (st : BallTrackerState) (obs : FrameObs) :
    BallTrackerState × BallDetection :=
  let total_frames := st.total_frames + 1
  let sensed := senseBall st obs
  let dcount :=
    match sensed with
    | some _ => st.detection_count + 1
    | none => st.detection_count
  let filtered : KalmanFilter × (ℚ × ℚ) × (ℚ × ℚ) × ℚ × Bool :=
    match sensed with
    | some pc =>
        let upd := update st.kalman_filter pc.1
        (upd.1, upd.2, pc.1, pc.2, true)
    | none =>
        let prd := predict st.kalman_filter
        (prd.1, prd.2, prd.2, 1 / 2, false)
  let kf := filtered.1
  let velocity := get_velocity kf
  let speed_mps :=
    some (calculate_speed_mps ( BallTrackerState.pixel_to_meter_ratio st)
      velocity)
  let is_bounce := detect_bounce st.trajectory_history (some velocity)
  let detection : BallDetection :=
    { timestamp := obs.timestamp, position := filtered.2.1,
      raw_position := filtered.2.2.1, confidence := filtered.2.2.2.1,
      velocity := some velocity, speed_mps := speed_mps,
      is_bounce := is_bounce, is_detected := filtered.2.2.2.2 }
  let hist := st.trajectory_history ++ [detection]
  let hist := if hist.length > 60 then hist.drop 1 else hist
  ({ st with kalman_filter := kf, trajectory_history := hist,
             detection_count := dcount, total_frames := total_frames },
   detection)

/-- A run of the ball tracker over a sequence of frames. -/
def runBallTracker (st : BallTrackerState) (frames : List FrameObs) :
    BallTrackerState :=
  frames.foldl (fun st f => (track st f).1) st

/-- `get_detection_rate` (lines 360-364). -/
def get_detection_rate (st : BallTrackerState) : ℚ :=
  if st.total_frames = 0 then 0
  else (st.detection_count : ℚ) / (st.total_frames : ℚ)

/-- `get_trajectory` (lines 366-368): a copy of the history. -/
def get_trajectory (st : BallTrackerState) : List BallDetection :=
  st.trajectory_history

end EnhancedBallTracker

/-! ## HighlightsGenerator.identify_highlights
(highlights_generator.py, lines 31-104) -/

namespace HighlightsGenerator

/-- The serialized shot dicts the generator consumes, read only through
`.get(key)` / `.get(key, default)`: a missing key is `none`. -/
structure ShotDict where
  player_number : Option ℕ
  timestamp : Option ℚ
  shot_type : Option String
  outcome : Option String
  deriving Repr, DecidableEq

/-- `HighlightClip` (lines 13-20). -/
structure HighlightClip where
  start_time : ℚ
  end_time : ℚ
  highlight_type : String
  description : String
  player_number : Option ℕ
  deriving Repr, DecidableEq

/-- How `shot.get('player_number', 'Unknown')` renders inside the
f-string descriptions. -/
def playerLabel : Option ℕ → String
  | some n => toString n
  | none => "Unknown"

/-- The candidate clips one shot contributes, in the order the loop body
appends them (lines 43-84): winners padded −5s/+2s, serve aces −2s/+3s,
smashes/overheads −2s/+2s, every window floored at 0. -/
def shotCandidates (s : ShotDict) : List HighlightClip :=
  let ts := s.timestamp.getD 0
  let winner : List HighlightClip :=
    if s.outcome = some "winner" then
      [{ start_time := max 0 (ts - 5), end_time := ts + 2,
         highlight_type := "winner",
         description := "Winner by Player " ++ playerLabel s.player_number,
         player_number := s.player_number }]
    else []
  let ace : List HighlightClip :=
    if s.shot_type = some "serve" ∧ s.outcome = some "ace" then
      [{ start_time := max 0 (ts - 2), end_time := ts + 3,
         highlight_type := "ace",
         description := "Ace by Player " ++ playerLabel s.player_number,
         player_number := s.player_number }]
    else []
  let smash : List HighlightClip :=
    if s.shot_type = some "smash" ∨ s.shot_type = some "overhead" then
      [{ start_time := max 0 (ts - 2), end_time := ts + 2,
         highlight_type := "smash",
         description := "Smash by Player " ++ playerLabel s.player_number,
         player_number := s.player_number }]
    else []
  winner ++ ace ++ smash

/-- `highlights.sort(key=lambda x: x.start_time)` (line 87). -/
def sortClips (l : List HighlightClip) : List HighlightClip :=
  l.mergeSort fun a b => decide (a.start_time ≤ b.start_time)

/-- One iteration of the merge loop (lines 91-101): a clip starting at most
1 second after the last merged clip ends extends that clip in place
(union of the bounds, concatenated description); otherwise it is appended
as a new clip. -/
def mergeStep (merged : List HighlightClip) (clip : HighlightClip) :
    List HighlightClip :=
  match merged.getLast? with
  | none => merged ++ [clip]
  | some last =>
      if clip.start_time ≤ last.end_time + 1 then
        merged.dropLast ++
          [{ last with
               end_time := max last.end_time clip.end_time,
               description := last.description ++ " | " ++ clip.description }]
      else merged ++ [clip]

/-- The merge pass over the sorted candidates (lines 90-101). -/
def mergeClips (clips : List HighlightClip) : List HighlightClip :=
  clips.foldl mergeStep []

/-- `identify_highlights` (lines 31-104): collect the per-shot candidate
windows, sort them by start time and merge overlapping or near-adjacent
ones. -/
def identify_highlights (shots : List ShotDict) : List HighlightClip :=
  mergeClips (sortClips (shots.flatMap shotCandidates))

end HighlightsGenerator

/-! ## Derived quantities used by the statements -/

namespace AnalyticsEngine

/-- Total `shot_count` over a list of finalized rallies
(`sum(rally["shot_count"] for rally in rallies)`). -/
def sumShotCount (rs : List Rally) : ℕ := (rs.map Rally.shot_count).sum

/-- Number of shots held by the open rally, if any. -/
def openCount : Option OpenRally → ℕ
  | none => 0
  | some r => r.shots.length

/-- Loop-state well-formedness: an open rally always holds at least one
shot (it is created around a shot and only appended to). -/
def WF (st : SegState) : Prop :=
  ∀ r, st.current = some r → r.shots ≠ []

end AnalyticsEngine

namespace EnhancedAnalyticsEngine

/-- Total `shot_count` over a list of finalized rallies. -/
def sumShotCount (rs : List ERally) : ℕ := (rs.map ERally.shot_count).sum

/-- Number of shots held by the open rally, if any. -/
def openCount : Option EOpenRally → ℕ
  | none => 0
  | some r => r.shots.length

/-- Concatenation of the `shot_ids` of a list of finalized rallies. -/
def allShotIds (rs : List ERally) : List ℕ := (rs.map ERally.shot_ids).flatten

/-- The shot ids held by the open rally, if any. -/
def openShotIds : Option EOpenRally → List ℕ
  | none => []
  | some r => r.shots.map Shot.shot_id

end EnhancedAnalyticsEngine

/-! # Theorems

Helper lemmas first, then one theorem per claim (with witnesses and
counterexamples where required). -/

/-! ## Shot conservation in AnalyticsEngine.identify_rallies -/

namespace AnalyticsEngine

theorem sumShotCount_append (rs : List Rally) (r : Rally) :
    sumShotCount (rs ++ [r]) = sumShotCount rs + r.shot_count := by
  simp [sumShotCount]

theorem closeGuarded_count (rs : List Rally) (r : OpenRally) (eb : String)
    (h : r.shots ≠ []) :
    sumShotCount (closeGuarded rs r eb)
      = sumShotCount rs + r.shots.length := by
  have he : r.shots.isEmpty = false := by
    cases hs : r.shots with
    | nil => exact absurd hs h
    | cons a l => rfl
  simp [closeGuarded, he, sumShotCount_append, finalizeRally]

theorem terminalPhase_some (c : OpenRally) (s : Shot) :
    ∃ r', terminalPhase (some c) s = some r' ∧ r'.shots = c.shots ∧
      r'.player1_shots = c.player1_shots ∧
      r'.player2_shots = c.player2_shots := by
  unfold terminalPhase
  cases h : s.outcome with
  | none => exact ⟨c, rfl, rfl, rfl, rfl⟩
  | some oc =>
      dsimp only
      by_cases hoc : oc = "out" ∨ oc = "net" ∨ oc = "winner" ∨ oc = "ace"
      · rw [if_pos hoc]
        by_cases hw : oc = "winner" ∨ oc = "ace"
        · rw [if_pos hw]; exact ⟨_, rfl, rfl, rfl, rfl⟩
        · rw [if_neg hw]; exact ⟨_, rfl, rfl, rfl, rfl⟩
      · rw [if_neg hoc]; exact ⟨c, rfl, rfl, rfl, rfl⟩

theorem openCount_some (r : OpenRally) :
    openCount (some r) = r.shots.length := rfl

theorem closePhase_false (st : SegState) :
    closePhase st false = (st.rallies, st.current) := rfl

theorem closePhase_true_some (st : SegState) (r : OpenRally)
    (hc : st.current = some r) :
    closePhase st true = (closeGuarded st.rallies r "point_end", none) := by
  unfold closePhase; rw [hc]; rfl

theorem closePhase_true_none (st : SegState) (hc : st.current = none) :
    closePhase st true = (st.rallies, none) := by
  unfold closePhase; rw [hc]; rfl

theorem closePhase_count (st : SegState) (b : Bool) (hwf : WF st) :
    sumShotCount (closePhase st b).1 + openCount (closePhase st b).2
      = sumShotCount st.rallies + openCount st.current := by
  cases b with
  | false => rw [closePhase_false]
  | true =>
      cases hc : st.current with
      | none => rw [closePhase_true_none st hc]
      | some r =>
          rw [closePhase_true_some st r hc]
          dsimp only
          rw [closeGuarded_count _ _ _ (hwf r hc)]
          simp [openCount]

theorem closePhase_open (st : SegState) (b : Bool) (r : OpenRally)
    (h : (closePhase st b).2 = some r) : st.current = some r := by
  cases b with
  | false => rw [closePhase_false] at h; exact h
  | true =>
      cases hc : st.current with
      | none => rw [closePhase_true_none st hc] at h; simp at h
      | some r0 => rw [closePhase_true_some st r0 hc] at h; simp at h

theorem contPhase_none (rc : List Rally × Option OpenRally) (s : Shot)
    (p : Option Shot) (h : rc.2 = none) :
    contPhase rc s p = (rc.1, newRally s) := by
  unfold contPhase; rw [h]

theorem contPhase_some (rc : List Rally × Option OpenRally) (r : OpenRally)
    (s : Shot) (p : Option Shot) (h : rc.2 = some r) :
    contPhase rc s p = continuePhase rc.1 r s p := by
  unfold contPhase; rw [h]

theorem continuePhase_cont (rallies : List Rally) (r : OpenRally) (s : Shot)
    (p : Option Shot)
    (h : s.timestamp - ((r.shots.getLast?).map Shot.timestamp).getD 0 < 5
      ∨ isSecondServe s p = true) :
    continuePhase rallies r s p = (rallies, appendShot r s) := by
  simp only [continuePhase]
  rw [if_pos h]

theorem continuePhase_stop (rallies : List Rally) (r : OpenRally) (s : Shot)
    (p : Option Shot)
    (h : ¬ (s.timestamp - ((r.shots.getLast?).map Shot.timestamp).getD 0 < 5
      ∨ isSecondServe s p = true)) :
    continuePhase rallies r s p
      = (rallies ++ [finalizeRally r "play_stopped"], newRally s) := by
  simp only [continuePhase]
  rw [if_neg h]

theorem appendShot_shots (r : OpenRally) (s : Shot) :
    (appendShot r s).shots = r.shots ++ [s] := by
  unfold appendShot; split <;> rfl

theorem contPhase_count (rc : List Rally × Option OpenRally) (s : Shot)
    (p : Option Shot) :
    (sumShotCount (contPhase rc s p).1 + (contPhase rc s p).2.shots.length
      = sumShotCount rc.1 + openCount rc.2 + 1) ∧
      (contPhase rc s p).2.shots ≠ [] := by
  cases hc : rc.2 with
  | none =>
      rw [contPhase_none rc s p hc]
      exact ⟨by simp [newRally, openCount], by simp [newRally]⟩
  | some r =>
      rw [contPhase_some rc r s p hc]
      by_cases h5 :
        s.timestamp - ((r.shots.getLast?).map Shot.timestamp).getD 0 < 5
          ∨ isSecondServe s p = true
      · rw [continuePhase_cont _ _ _ _ h5]
        refine ⟨?_, ?_⟩
        · dsimp only
          rw [appendShot_shots]
          simp [openCount]
          omega
        · rw [appendShot_shots]; simp
      · rw [continuePhase_stop _ _ _ _ h5]
        refine ⟨?_, by simp [newRally]⟩
        dsimp only
        rw [sumShotCount_append]
        simp [finalizeRally, newRally, openCount]

theorem stepShot_count (st : SegState) (s : Shot) (hwf : WF st) :
    (sumShotCount (stepShot st s).rallies
        + openCount (stepShot st s).current
      = sumShotCount st.rallies + openCount st.current + 1) ∧
      WF (stepShot st s) := by
  obtain ⟨r', hr', hsh, -, -⟩ :=
    terminalPhase_some
      (contPhase (closePhase st (newPointFlag st s).1) s st.prevShot).2 s
  have hcont :=
    contPhase_count (closePhase st (newPointFlag st s).1) s st.prevShot
  have hclose := closePhase_count st (newPointFlag st s).1 hwf
  have hcur : (stepShot st s).current
      = terminalPhase
          (some (contPhase (closePhase st (newPointFlag st s).1) s
            st.prevShot).2) s := rfl
  have hral : (stepShot st s).rallies
      = (contPhase (closePhase st (newPointFlag st s).1) s st.prevShot).1 :=
    rfl
  constructor
  · rw [hcur, hral, hr', openCount_some, hsh]
    omega
  · intro r0 hr0
    rw [hcur, hr'] at hr0
    cases hr0
    rw [hsh]
    exact hcont.2

theorem foldl_stepShot_count (shots : List Shot) :
    ∀ st : SegState, WF st →
      (sumShotCount (shots.foldl stepShot st).rallies
          + openCount (shots.foldl stepShot st).current
        = sumShotCount st.rallies + openCount st.current + shots.length) ∧
      WF (shots.foldl stepShot st) := by
  induction shots with
  | nil => intro st h; exact ⟨by simp, h⟩
  | cons s rest ih =>
      intro st h
      have hs := stepShot_count st s h
      have hr := ih (stepShot st s) hs.2
      refine ⟨?_, by simpa using hr.2⟩
      simp only [List.foldl_cons, List.length_cons]
      omega

theorem identify_rallies_eq (shots : List Shot) :
    identify_rallies shots
      = match (List.foldl stepShot initSeg shots).current with
        | some r =>
            closeGuarded (List.foldl stepShot initSeg shots).rallies r
              (r.ended_by.getD "match_end")
        | none => (List.foldl stepShot initSeg shots).rallies := rfl

theorem identify_rallies_count (shots : List Shot) :
    sumShotCount (identify_rallies shots) = shots.length := by
  have h := foldl_stepShot_count shots initSeg
    (by intro r hr; simp [initSeg] at hr)
  have hz : sumShotCount initSeg.rallies + openCount initSeg.current = 0 :=
    rfl
  rw [identify_rallies_eq]
  cases hc : (List.foldl stepShot initSeg shots).current with
  | none =>
      rw [hc] at h
      dsimp only
      have h1 := h.1
      simp only [openCount] at h1
      omega
  | some r =>
      rw [hc] at h
      dsimp only
      have hne : r.shots ≠ [] := h.2 r hc
      rw [closeGuarded_count _ _ _ hne]
      have h1 := h.1
      rw [openCount_some] at h1
      omega

end AnalyticsEngine

/-! ## Shot conservation in EnhancedAnalyticsEngine.identify_rallies -/

namespace EnhancedAnalyticsEngine

theorem eSumShotCount_append (rs : List ERally) (r : ERally) :
    sumShotCount (rs ++ [r]) = sumShotCount rs + r.shot_count := by
  simp [sumShotCount]

theorem eAllShotIds_append (rs : List ERally) (r : ERally) :
    allShotIds (rs ++ [r]) = allShotIds rs ++ r.shot_ids := by
  simp [allShotIds]

theorem finalize_rally_shot_count (r : EOpenRally) :
    (finalize_rally r).shot_count = r.shots.length := rfl

theorem openCount_some' (r : EOpenRally) :
    openCount (some r) = r.shots.length := rfl

theorem finalize_rally_shot_ids (r : EOpenRally) :
    (finalize_rally r).shot_ids = r.shots.map Shot.shot_id := rfl

theorem eStep_count (st : List ERally × Option EOpenRally) (s : Shot) :
    (sumShotCount (eStep st s).1 + openCount (eStep st s).2
       = sumShotCount st.1 + openCount st.2 + 1) ∧
    (allShotIds (eStep st s).1 ++ openShotIds (eStep st s).2
       = (allShotIds st.1 ++ openShotIds st.2) ++ [s.shot_id]) := by
  unfold eStep
  cases hc : st.2 with
  | none =>
      dsimp only
      by_cases hp : s.player_number = 1 <;>
        simp [hp, openCount, openShotIds, sumShotCount, allShotIds]
  | some r =>
      dsimp only
      by_cases h5 :
          s.timestamp - ((r.shots.getLast?).map Shot.timestamp).getD 0 < 5
      · rw [if_pos h5]
        by_cases hp : s.player_number = 1 <;>
          simp [hp, openCount, openShotIds, Nat.add_assoc]
      · rw [if_neg h5]
        by_cases hp : s.player_number = 1 <;>
          simp [hp, openCount, openShotIds, eSumShotCount_append,
            eAllShotIds_append, finalize_rally_shot_count,
            finalize_rally_shot_ids, Nat.add_comm, Nat.add_left_comm]

theorem foldl_eStep_count (shots : List Shot) :
    ∀ st : List ERally × Option EOpenRally,
      (sumShotCount (shots.foldl eStep st).1
          + openCount (shots.foldl eStep st).2
        = sumShotCount st.1 + openCount st.2 + shots.length) ∧
      (allShotIds (shots.foldl eStep st).1
          ++ openShotIds (shots.foldl eStep st).2
        = (allShotIds st.1 ++ openShotIds st.2) ++ shots.map Shot.shot_id) := by
  induction shots with
  | nil => intro st; exact ⟨by simp, by simp⟩
  | cons s rest ih =>
      intro st
      have hs := eStep_count st s
      have hr := ih (eStep st s)
      constructor
      · simp only [List.foldl_cons, List.length_cons]
        have := hr.1
        omega
      · simp only [List.foldl_cons, List.map_cons]
        rw [hr.2, hs.2]
        simp

theorem e_identify_rallies_eq (shots : List Shot) (h0 : ¬ shots = []) :
    identify_rallies shots
      = match (List.foldl eStep ([], none) shots).2 with
        | some r => (List.foldl eStep ([], none) shots).1 ++ [finalize_rally r]
        | none => (List.foldl eStep ([], none) shots).1 := by
  unfold identify_rallies
  rw [if_neg h0]

theorem e_identify_rallies_count (shots : List Shot) :
    sumShotCount (identify_rallies shots) = shots.length ∧
    allShotIds (identify_rallies shots) = shots.map Shot.shot_id := by
  by_cases h0 : shots = []
  · simp [h0, identify_rallies, sumShotCount, allShotIds]
  · rw [e_identify_rallies_eq shots h0]
    have h := foldl_eStep_count shots ([], none)
    cases hc : (List.foldl eStep ([], none) shots).2 with
    | none =>
        rw [hc] at h
        obtain ⟨h1, h2⟩ := h
        dsimp only at h1 h2 ⊢
        have hb : sumShotCount ([] : List ERally) = 0 := rfl
        have hx : openCount (none : Option EOpenRally) = 0 := rfl
        constructor
        · omega
        · simpa [openShotIds, allShotIds] using h2
    | some r =>
        rw [hc] at h
        obtain ⟨h1, h2⟩ := h
        dsimp only at h1 h2 ⊢
        simp only [openCount] at h1
        have hb : sumShotCount ([] : List ERally) = 0 := rfl
        constructor
        · rw [eSumShotCount_append, finalize_rally_shot_count]
          omega
        · rw [eAllShotIds_append, finalize_rally_shot_ids]
          simpa [openShotIds, allShotIds] using h2

end EnhancedAnalyticsEngine

/-! ## Winner recomputation at close (AnalyticsEngine) -/

namespace AnalyticsEngine

theorem stepShot_rallies (st : SegState) (s : Shot) :
    (stepShot st s).rallies
      = (contPhase (closePhase st (newPointFlag st s).1) s st.prevShot).1 :=
  rfl

theorem stepShot_current (st : SegState) (s : Shot) :
    (stepShot st s).current
      = terminalPhase
          (some (contPhase (closePhase st (newPointFlag st s).1) s
            st.prevShot).2) s :=
  rfl

theorem finalizeRally_winner (r : OpenRally) (eb : String) :
    (finalizeRally r eb).winner_player
      = majorityWinner (finalizeRally r eb).player1_shots
          (finalizeRally r eb).player2_shots := rfl

theorem mem_closeGuarded {rs : List Rally} {r : OpenRally} {eb : String}
    {rl : Rally} (h : rl ∈ closeGuarded rs r eb) :
    rl ∈ rs ∨ rl = finalizeRally r eb := by
  unfold closeGuarded at h
  split at h
  · exact Or.inl h
  · simpa using h

theorem mem_closePhase {st : SegState} {b : Bool} {rl : Rally}
    (h : rl ∈ (closePhase st b).1) :
    rl ∈ st.rallies ∨ ∃ r eb, rl = finalizeRally r eb := by
  cases b with
  | false => rw [closePhase_false] at h; exact Or.inl h
  | true =>
      cases hc : st.current with
      | none => rw [closePhase_true_none st hc] at h; exact Or.inl h
      | some r =>
          rw [closePhase_true_some st r hc] at h
          dsimp only at h
          rcases mem_closeGuarded h with h' | h'
          · exact Or.inl h'
          · exact Or.inr ⟨r, _, h'⟩

theorem mem_contPhase {rc : List Rally × Option OpenRally} {s : Shot}
    {p : Option Shot} {rl : Rally} (h : rl ∈ (contPhase rc s p).1) :
    rl ∈ rc.1 ∨ ∃ r eb, rl = finalizeRally r eb := by
  cases hc : rc.2 with
  | none => rw [contPhase_none rc s p hc] at h; exact Or.inl h
  | some r =>
      rw [contPhase_some rc r s p hc] at h
      by_cases h5 :
        s.timestamp - ((r.shots.getLast?).map Shot.timestamp).getD 0 < 5
          ∨ isSecondServe s p = true
      · rw [continuePhase_cont _ _ _ _ h5] at h; exact Or.inl h
      · rw [continuePhase_stop _ _ _ _ h5] at h
        dsimp only at h
        rcases List.mem_append.mp h with h' | h'
        · exact Or.inl h'
        · exact Or.inr ⟨r, _, by simpa using h'⟩

theorem mem_stepShot {st : SegState} {s : Shot} {rl : Rally}
    (h : rl ∈ (stepShot st s).rallies) :
    rl ∈ st.rallies ∨ ∃ r eb, rl = finalizeRally r eb := by
  rw [stepShot_rallies] at h
  rcases mem_contPhase h with h' | h'
  · exact mem_closePhase h'
  · exact Or.inr h'

theorem foldl_stepShot_winner (shots : List Shot) :
    ∀ st : SegState,
      (∀ rl ∈ st.rallies,
        rl.winner_player
          = majorityWinner rl.player1_shots rl.player2_shots) →
      ∀ rl ∈ (shots.foldl stepShot st).rallies,
        rl.winner_player
          = majorityWinner rl.player1_shots rl.player2_shots := by
  induction shots with
  | nil => intro st h; exact h
  | cons s rest ih =>
      intro st h
      simp only [List.foldl_cons]
      refine ih (stepShot st s) ?_
      intro rl hrl
      rcases mem_stepShot hrl with h' | ⟨r, eb, h'⟩
      · exact h rl h'
      · rw [h']; exact finalizeRally_winner r eb

theorem identify_rallies_winner (shots : List Shot) :
    ∀ rl ∈ identify_rallies shots,
      rl.winner_player = majorityWinner rl.player1_shots rl.player2_shots := by
  intro rl hrl
  rw [identify_rallies_eq] at hrl
  have hfold := foldl_stepShot_winner shots initSeg
    (by intro rl0 h0; simp [initSeg] at h0)
  cases hc : (List.foldl stepShot initSeg shots).current with
  | none => rw [hc] at hrl; exact hfold rl hrl
  | some r =>
      rw [hc] at hrl
      dsimp only at hrl
      rcases mem_closeGuarded hrl with h' | h'
      · exact hfold rl h'
      · rw [h']; exact finalizeRally_winner r _

theorem terminalPhase_win {c : OpenRally} {s : Shot} {oc : String}
    (h : s.outcome = some oc) (hw : oc = "winner" ∨ oc = "ace") :
    terminalPhase (some c) s
      = some { c with end_time := some s.timestamp,
                      winner_player := some s.player_number,
                      ended_by := some "winner" } := by
  unfold terminalPhase
  rw [h]
  dsimp only
  rw [if_pos (by rcases hw with h' | h' <;> simp [h']), if_pos hw]

theorem terminalPhase_err {c : OpenRally} {s : Shot} {oc : String}
    (h : s.outcome = some oc) (he : oc = "out" ∨ oc = "net") :
    terminalPhase (some c) s
      = some { c with end_time := some s.timestamp,
                      winner_player :=
                        some (if s.player_number = 1 then 2 else 1),
                      ended_by := some "error" } := by
  have hnw : ¬ (oc = "winner" ∨ oc = "ace") := by
    rcases he with h' | h' <;> simp [h']
  unfold terminalPhase
  rw [h]
  dsimp only
  rw [if_pos (by rcases he with h' | h' <;> simp [h']), if_neg hnw]

end AnalyticsEngine

/-! ## Persistence of the player-number mapping (EnhancedPlayerTracker) -/

namespace EnhancedPlayerTracker

theorem alookup_aset_of_ne {α : Type} (m : List (ℕ × α)) (k k' : ℕ) (v : α)
    (h : k' ≠ k) : alookup (aset m k' v) k = alookup m k := by
  induction m with
  | nil => simp [aset, alookup, h]
  | cons p rest ih =>
      by_cases hp : p.1 = k'
      · obtain ⟨p1, p2⟩ := p
        simp only at hp
        simp [aset, alookup, hp, h, Ne.symm h]
      · obtain ⟨p1, p2⟩ := p
        simp only at hp
        simp only [aset, alookup, if_neg hp]
        by_cases hk : p1 = k
        · simp [hk]
        · simp [hk, ih]

theorem assign_found (m : List (ℕ × ℕ)) (tid : ℕ) (b : BBox) (w : ℚ)
    (n : ℕ) (h : alookup m tid = some n) :
    (assign_player_number m tid b w).1 = n := by
  simp [assign_player_number, h]

theorem assign_preserves (m : List (ℕ × ℕ)) (tid tid' : ℕ) (b : BBox)
    (w : ℚ) (n : ℕ) (h : alookup m tid = some n) :
    alookup (assign_player_number m tid' b w).2 tid = some n := by
  unfold assign_player_number
  cases hl : alookup m tid' with
  | some k => simpa using h
  | none =>
      dsimp only
      have hne : tid' ≠ tid := by
        intro he
        rw [he, h] at hl
        cases hl
      rw [alookup_aset_of_ne m tid tid' _ hne]
      exact h

theorem processBox_mapping (ts w : ℚ)
    (acc : TrackerState × List ℕ × List PlayerDetection) (box : RawBox)
    (tid : ℕ) (n : ℕ) (h : alookup acc.1.player_mapping tid = some n) :
    alookup (processBox ts w acc box).1.player_mapping tid = some n := by
  unfold processBox
  split
  · exact h
  · dsimp only
    cases hid : box.id with
    | some t =>
        dsimp only
        split <;> exact assign_preserves _ tid _ _ _ _ h
    | none =>
        dsimp only
        split <;> exact assign_preserves _ tid _ _ _ _ h

theorem foldl_processBox_mapping (ts w : ℚ) (boxes : List RawBox) :
    ∀ acc : TrackerState × List ℕ × List PlayerDetection, ∀ tid n,
      alookup acc.1.player_mapping tid = some n →
      alookup (boxes.foldl (processBox ts w) acc).1.player_mapping tid
        = some n := by
  induction boxes with
  | nil => intro acc tid n h; exact h
  | cons b rest ih =>
      intro acc tid n h
      simp only [List.foldl_cons]
      exact ih _ tid n (processBox_mapping ts w acc b tid n h)

theorem evictOne_mapping (ts : ℚ) (st : TrackerState) (tid : ℕ) :
    (evictOne ts st tid).player_mapping = st.player_mapping := by
  unfold evictOne
  split <;> (dsimp only; split <;> rfl)

theorem foldl_evictOne_mapping (ts : ℚ) (l : List ℕ) :
    ∀ st : TrackerState,
      (l.foldl (evictOne ts) st).player_mapping = st.player_mapping := by
  induction l with
  | nil => intro st; rfl
  | cons t rest ih =>
      intro st
      simp only [List.foldl_cons]
      rw [ih, evictOne_mapping]

theorem evictStale_mapping (st : TrackerState) (curIds : List ℕ) (ts : ℚ) :
    (evictStale st curIds ts).player_mapping = st.player_mapping := by
  unfold evictStale
  exact foldl_evictOne_mapping ts _ st

theorem track_mapping (st : TrackerState) (f : PFrame) (tid n : ℕ)
    (h : alookup st.player_mapping tid = some n) :
    alookup (track st f).1.player_mapping tid = some n := by
  unfold track
  dsimp only
  rw [evictStale_mapping]
  exact foldl_processBox_mapping _ _ _ (st, [], []) tid n h

theorem runTracker_mapping (frames : List PFrame) :
    ∀ st : TrackerState, ∀ tid n,
      alookup st.player_mapping tid = some n →
      alookup (runTracker st frames).player_mapping tid = some n := by
  induction frames with
  | nil => intro st tid n h; exact h
  | cons f rest ih =>
      intro st tid n h
      simp only [runTracker, List.foldl_cons]
      exact ih _ tid n (track_mapping st f tid n h)

theorem statsStep_skip (st : TrackerState) (pn : ℕ) (acc : ℚ × ℚ × ℚ × ℕ)
    (p : ℕ × ℕ) (h : p.2 = pn → alookup st.tracks p.1 = none) :
    statsStep st pn acc p = acc := by
  unfold statsStep
  by_cases hp : p.2 = pn
  · rw [if_pos hp, h hp]
  · rw [if_neg hp]

theorem foldl_statsStep_skip (st : TrackerState) (pn : ℕ)
    (l : List (ℕ × ℕ)) (acc : ℚ × ℚ × ℚ × ℕ)
    (h : ∀ p ∈ l, p.2 = pn → alookup st.tracks p.1 = none) :
    l.foldl (statsStep st pn) acc = acc := by
  induction l generalizing acc with
  | nil => rfl
  | cons p rest ih =>
      simp only [List.foldl_cons]
      rw [statsStep_skip st pn acc p (h p (by simp))]
      exact ih acc fun q hq => h q (List.mem_cons_of_mem p hq)

end EnhancedPlayerTracker

/-! ## Ball tracker counters and history bound -/

namespace EnhancedBallTracker

theorem track_total_frames (st : BallTrackerState) (obs : FrameObs) :
    (track st obs).1.total_frames = st.total_frames + 1 := rfl

theorem track_detection_count (st : BallTrackerState) (obs : FrameObs) :
    (track st obs).1.detection_count = st.detection_count ∨
    (track st obs).1.detection_count = st.detection_count + 1 := by
  unfold track
  dsimp only
  cases hs : senseBall st obs with
  | some pc => right; rfl
  | none => left; rfl

theorem track_history (st : BallTrackerState) (obs : FrameObs) :
    ∃ d, (track st obs).1.trajectory_history
      = if (st.trajectory_history ++ [d]).length > 60
        then (st.trajectory_history ++ [d]).drop 1
        else st.trajectory_history ++ [d] :=
  ⟨_, rfl⟩

theorem track_history_le (st : BallTrackerState) (obs : FrameObs)
    (h : st.trajectory_history.length ≤ 60) :
    (track st obs).1.trajectory_history.length ≤ 60 := by
  obtain ⟨d, hd⟩ := track_history st obs
  rw [hd]
  split
  · simp only [List.length_drop, List.length_append, List.length_singleton]
    omega
  · rename_i h2
    simp only [List.length_append, List.length_singleton] at h2 ⊢
    omega

theorem runBallTracker_history (frames : List FrameObs) :
    ∀ st : BallTrackerState, st.trajectory_history.length ≤ 60 →
      (runBallTracker st frames).trajectory_history.length ≤ 60 := by
  induction frames with
  | nil => intro st h; exact h
  | cons f rest ih =>
      intro st h
      simp only [runBallTracker, List.foldl_cons]
      exact ih _ (track_history_le st f h)

theorem runBallTracker_counts (frames : List FrameObs) :
    ∀ st : BallTrackerState, st.detection_count ≤ st.total_frames →
      (runBallTracker st frames).detection_count
        ≤ (runBallTracker st frames).total_frames := by
  induction frames with
  | nil => intro st h; exact h
  | cons f rest ih =>
      intro st h
      simp only [runBallTracker, List.foldl_cons]
      refine ih _ ?_
      rw [track_total_frames]
      rcases track_detection_count st f with h' | h' <;> rw [h'] <;> omega

theorem rate_bounds (st : BallTrackerState)
    (h : st.detection_count ≤ st.total_frames) :
    0 ≤ get_detection_rate st ∧ get_detection_rate st ≤ 1 := by
  unfold get_detection_rate
  split
  · norm_num
  · rename_i h0
    constructor
    · positivity
    · rw [div_le_one (by positivity)]
      · exact_mod_cast h

end EnhancedBallTracker

/-! ## Highlight merge ordering -/

namespace HighlightsGenerator

theorem mergeStep_starts (acc : List HighlightClip) (c : HighlightClip) :
    (mergeStep acc c).map HighlightClip.start_time
        = acc.map HighlightClip.start_time ++ [c.start_time] ∨
    (mergeStep acc c).map HighlightClip.start_time
        = acc.map HighlightClip.start_time := by
  unfold mergeStep
  cases hl : acc.getLast? with
  | none => left; simp
  | some last =>
      dsimp only
      split
      · right
        have hne : acc ≠ [] := by
          intro he; rw [he] at hl; simp at hl
        have hlast : acc.getLast hne = last := by
          rw [List.getLast?_eq_getLast acc hne] at hl
          exact (Option.some_inj.mp hl)
        conv_rhs => rw [← List.dropLast_append_getLast hne]
        rw [List.map_append, List.map_append]
        simp [hlast]
      · left; simp

theorem mergeClips_sorted_aux (clips : List HighlightClip) :
    ∀ acc : List HighlightClip,
      List.Pairwise (· ≤ ·) (acc.map HighlightClip.start_time) →
      (∀ x ∈ acc.map HighlightClip.start_time, ∀ c ∈ clips,
        x ≤ c.start_time) →
      List.Pairwise
        (fun a b : HighlightClip => a.start_time ≤ b.start_time) clips →
      List.Pairwise (· ≤ ·)
        ((clips.foldl mergeStep acc).map HighlightClip.start_time) := by
  induction clips with
  | nil => intro acc h1 _ _; exact h1
  | cons c cs ih =>
      intro acc h1 h2 h3
      simp only [List.foldl_cons]
      rcases mergeStep_starts acc c with hs | hs
      · refine ih (mergeStep acc c) ?_ ?_ (List.Pairwise.sublist
          (List.sublist_cons_self c cs) h3)
        · rw [hs]
          rw [List.pairwise_append]
          refine ⟨h1, by simp, ?_⟩
          intro x hx y hy
          rw [List.mem_singleton] at hy
          subst hy
          exact h2 x hx c (by simp)
        · intro x hx c' hc'
          rw [hs] at hx
          rcases List.mem_append.mp hx with hx' | hx'
          · exact h2 x hx' c' (List.mem_cons_of_mem c hc')
          · rw [List.mem_singleton] at hx'
            subst hx'
            exact (List.pairwise_cons.mp h3).1 c' hc'
      · refine ih (mergeStep acc c) ?_ ?_ (List.Pairwise.sublist
          (List.sublist_cons_self c cs) h3)
        · rw [hs]; exact h1
        · intro x hx c' hc'
          rw [hs] at hx
          exact h2 x hx c' (List.mem_cons_of_mem c hc')

theorem sortClips_sorted (l : List HighlightClip) :
    List.Pairwise
      (fun a b : HighlightClip => a.start_time ≤ b.start_time)
      (sortClips l) := by
  have h := @List.sorted_mergeSort HighlightClip
    (fun a b : HighlightClip => decide (a.start_time ≤ b.start_time))
    (fun a b c hab hbc => by
      simp only [decide_eq_true_eq] at *
      exact le_trans hab hbc)
    (fun a b => by
      simp only [Bool.or_eq_true, decide_eq_true_eq]
      exact le_total a.start_time b.start_time)
    l
  unfold sortClips
  exact h.imp fun hab => by simpa using hab

theorem identify_highlights_sorted (shots : List ShotDict) :
    List.Pairwise (· ≤ ·)
      ((identify_highlights shots).map HighlightClip.start_time) := by
  unfold identify_highlights mergeClips
  refine mergeClips_sorted_aux _ [] (by simp) (by simp) ?_
  exact sortClips_sorted _

end HighlightsGenerator

/-! ## Claim theorems -/

/-- Claim C7: feeding `AnalyticsEngine.identify_rallies` the three-shot
stream [(t=10, serve, P1, side=deuce, is_point_start=true), (t=11.2,
rally, P2), (t=12.0, rally, P1, outcome=winner)] yields exactly one rally
with `shot_count = 3`, `winner_player = 1` and `ended_by = "winner"`. -/
theorem c7_scenario_a :
    AnalyticsEngine.identify_rallies
      [ ⟨1, 1, 10, "serve", none, some "deuce", true⟩,
        ⟨2, 2, 56/5, "forehand", none, none, false⟩,
        ⟨3, 1, 12, "forehand", some "winner", none, false⟩ ]
      = [{ start_time := 10, end_time := 12, duration := 2, shot_count := 3,
           player1_shots := 2, player2_shots := 1, winner_player := some 1,
           ended_by := "winner" }] := by
  norm_num [AnalyticsEngine.identify_rallies, AnalyticsEngine.initSeg,
    AnalyticsEngine.stepShot, AnalyticsEngine.newPointFlag,
    AnalyticsEngine.closePhase, AnalyticsEngine.contPhase,
    AnalyticsEngine.continuePhase, AnalyticsEngine.terminalPhase,
    strTruthy, AnalyticsEngine.isSecondServe, AnalyticsEngine.appendShot,
    AnalyticsEngine.newRally, AnalyticsEngine.closeGuarded,
    AnalyticsEngine.finalizeRally, AnalyticsEngine.majorityWinner]

/-- Claim C1 is violated by `EnhancedAnalyticsEngine.identify_rallies`: a
rally opened after a ≥5-second gap initializes the shooter's count to 1
(lines 67-73) and the unconditional update at lines 75-79 then increments
it again, so the restarted rally here has `shot_count = 1` but
`player1_shots = 2`, breaking
`shot_count == player1_shots + player2_shots`.  (The first rally is
unaffected because its initialization at lines 48-54 starts both counts at
0.) -/
theorem c1_enhanced_count_invariant_fails :
    EnhancedAnalyticsEngine.identify_rallies
      [ ⟨1, 1, 0, "forehand", none, none, false⟩,
        ⟨2, 1, 10, "forehand", none, none, false⟩ ]
      = [{ start_time := 0, start_shot_id := 1, end_time := 0, duration := 0,
           shot_count := 1, player1_shots := 1, player2_shots := 0,
           winner_player := some 1, ended_by := "unknown", shot_ids := [1] },
         { start_time := 10, start_shot_id := 2, end_time := 10,
           duration := 0, shot_count := 1, player1_shots := 2,
           player2_shots := 0, winner_player := some 1,
           ended_by := "unknown", shot_ids := [2] }] ∧
    ¬ ∀ rl ∈ EnhancedAnalyticsEngine.identify_rallies
        [ ⟨1, 1, 0, "forehand", none, none, false⟩,
          ⟨2, 1, 10, "forehand", none, none, false⟩ ],
        rl.shot_count = rl.player1_shots + rl.player2_shots := by
  have heval :
      EnhancedAnalyticsEngine.identify_rallies
        [ ⟨1, 1, 0, "forehand", none, none, false⟩,
          ⟨2, 1, 10, "forehand", none, none, false⟩ ]
        = [{ start_time := 0, start_shot_id := 1, end_time := 0,
             duration := 0, shot_count := 1, player1_shots := 1,
             player2_shots := 0, winner_player := some 1,
             ended_by := "unknown", shot_ids := [1] },
           { start_time := 10, start_shot_id := 2, end_time := 10,
             duration := 0, shot_count := 1, player1_shots := 2,
             player2_shots := 0, winner_player := some 1,
             ended_by := "unknown", shot_ids := [2] }] := by
    norm_num [EnhancedAnalyticsEngine.identify_rallies,
      EnhancedAnalyticsEngine.eStep, EnhancedAnalyticsEngine.finalize_rally,
      AnalyticsEngine.majorityWinner]
    simp
  refine ⟨heval, ?_⟩
  intro hall
  have h2 := hall
    { start_time := 10, start_shot_id := 2, end_time := 10, duration := 0,
      shot_count := 1, player1_shots := 2, player2_shots := 0,
      winner_player := some 1, ended_by := "unknown", shot_ids := [2] }
    (by rw [heval]; simp)
  simp at h2

/-- Claim C2 counterexample: a terminal-outcome shot does NOT close the
open rally in `AnalyticsEngine.identify_rallies`.  The first shot has
outcome `"winner"`, yet the second shot (0.8s later, within the 5-second
window) is still appended to the same rally — the output is a single rally
with `shot_count = 2` — and at the final close `winner_player` is
recomputed by shot-count majority, overwriting the terminal attribution:
the tie 1-1 yields `winner_player = none`, not `some 1` as the claim
requires.  Only `ended_by = "winner"` survives. -/
theorem c2_terminal_does_not_close_counterexample :
    AnalyticsEngine.identify_rallies
      [ ⟨1, 1, 0, "forehand", some "winner", none, false⟩,
        ⟨2, 2, 1, "forehand", none, none, false⟩ ]
      = [{ start_time := 0, end_time := 1, duration := 1, shot_count := 2,
           player1_shots := 1, player2_shots := 1, winner_player := none,
           ended_by := "winner" }] ∧
    (AnalyticsEngine.identify_rallies
      [ ⟨1, 1, 0, "forehand", some "winner", none, false⟩,
        ⟨2, 2, 1, "forehand", none, none, false⟩ ]).map
      (fun rl => (rl.shot_count, rl.winner_player)) ≠ [(1, some 1), (1, some 2)] ∧
    (AnalyticsEngine.identify_rallies
      [ ⟨1, 1, 0, "forehand", some "winner", none, false⟩,
        ⟨2, 2, 1, "forehand", none, none, false⟩ ]).map
      (fun rl => (rl.shot_count, rl.winner_player)) = [(2, none)] := by
  have heval :
      AnalyticsEngine.identify_rallies
        [ ⟨1, 1, 0, "forehand", some "winner", none, false⟩,
          ⟨2, 2, 1, "forehand", none, none, false⟩ ]
        = [{ start_time := 0, end_time := 1, duration := 1, shot_count := 2,
             player1_shots := 1, player2_shots := 1, winner_player := none,
             ended_by := "winner" }] := by
    norm_num [AnalyticsEngine.identify_rallies, AnalyticsEngine.initSeg,
      AnalyticsEngine.stepShot, AnalyticsEngine.newPointFlag,
      AnalyticsEngine.closePhase, AnalyticsEngine.contPhase,
      AnalyticsEngine.continuePhase, AnalyticsEngine.terminalPhase,
      strTruthy, AnalyticsEngine.isSecondServe, AnalyticsEngine.appendShot,
      AnalyticsEngine.newRally, AnalyticsEngine.closeGuarded,
      AnalyticsEngine.finalizeRally, AnalyticsEngine.majorityWinner]
  refine ⟨heval, by rw [heval]; simp, by rw [heval]; simp⟩

/-- Claim C2, amended to what the code does: appending a terminal-outcome
shot (outcome out/net/winner/ace) to the open rally does NOT close it; it
records, on the still-open rally, `end_time` = the shot's timestamp,
`winner_player` = the shooter for winner/ace and the opponent for out/net,
and `ended_by` = "winner"/"error", while the list of closed rallies is
unchanged and the appended shot stays in the open rally.  Moreover, in the
finalized output `winner_player` is always recomputed by shot-count
majority (ties yield `none`), overwriting any terminal attribution; of the
terminal record only `ended_by` can survive, and only at the end-of-stream
close. -/
theorem c2_amended_terminal_records_but_does_not_close (st : AnalyticsEngine.SegState)
    (r : AnalyticsEngine.OpenRally) (shot : Shot) (oc : String)
    (hc : st.current = some r)
    (hnp : (AnalyticsEngine.newPointFlag st shot).1 = false)
    (hcont : shot.timestamp
        - ((r.shots.getLast?).map Shot.timestamp).getD 0 < 5
      ∨ AnalyticsEngine.isSecondServe shot st.prevShot = true)
    (hoc : shot.outcome = some oc)
    (hterm : oc = "out" ∨ oc = "net" ∨ oc = "winner" ∨ oc = "ace") :
    ((AnalyticsEngine.stepShot st shot).rallies = st.rallies ∧
     ∃ r', (AnalyticsEngine.stepShot st shot).current = some r' ∧
       r'.shots = r.shots ++ [shot] ∧
       r'.end_time = some shot.timestamp ∧
       ((oc = "winner" ∨ oc = "ace") →
         r'.winner_player = some shot.player_number ∧
         r'.ended_by = some "winner") ∧
       ((oc = "out" ∨ oc = "net") →
         r'.winner_player = some (if shot.player_number = 1 then 2 else 1) ∧
         r'.ended_by = some "error")) ∧
    (∀ shots' : List Shot,
      ∀ rl ∈ AnalyticsEngine.identify_rallies shots',
        rl.winner_player
          = AnalyticsEngine.majorityWinner rl.player1_shots
              rl.player2_shots) := by
  refine ⟨⟨?_, ?_⟩, AnalyticsEngine.identify_rallies_winner⟩
  · rw [AnalyticsEngine.stepShot_rallies, hnp,
      AnalyticsEngine.closePhase_false,
      AnalyticsEngine.contPhase_some _ r _ _ hc,
      AnalyticsEngine.continuePhase_cont _ _ _ _ hcont]
  · rw [AnalyticsEngine.stepShot_current, hnp,
      AnalyticsEngine.closePhase_false,
      AnalyticsEngine.contPhase_some _ r _ _ hc,
      AnalyticsEngine.continuePhase_cont _ _ _ _ hcont]
    dsimp only
    by_cases hw : oc = "winner" ∨ oc = "ace"
    · rw [AnalyticsEngine.terminalPhase_win hoc hw]
      refine ⟨_, rfl, AnalyticsEngine.appendShot_shots r shot, rfl,
        fun _ => ⟨rfl, rfl⟩, fun he => ?_⟩
      rcases hw with h1 | h1 <;> rcases he with h2 | h2 <;>
        (subst h1; simp at h2)
    · have he : oc = "out" ∨ oc = "net" := by
        rcases hterm with h | h | h | h
        · exact Or.inl h
        · exact Or.inr h
        · exact absurd (Or.inl h) hw
        · exact absurd (Or.inr h) hw
      rw [AnalyticsEngine.terminalPhase_err hoc he]
      exact ⟨_, rfl, AnalyticsEngine.appendShot_shots r shot, rfl,
        fun hw' => absurd hw' hw, fun _ => ⟨rfl, rfl⟩⟩

/-- Concrete instance of the amended Claim C2 theorem: in a state whose
open rally holds one player-1 shot at t=0, a player-2 shot at t=1 with
outcome `"out"` is appended without closing the rally, and the terminal
record attributes the error to the opposing player on the open rally. -/
theorem c2_amended_witness :
    ((⟨[], some ⟨0, [⟨1, 1, 0, "forehand", none, none, false⟩], 1, 0,
        none, none, none⟩, none, none,
        some ⟨1, 1, 0, "forehand", none, none, false⟩⟩ :
        AnalyticsEngine.SegState).current
      = some ⟨0, [⟨1, 1, 0, "forehand", none, none, false⟩], 1, 0,
          none, none, none⟩) ∧
    ((AnalyticsEngine.stepShot
        ⟨[], some ⟨0, [⟨1, 1, 0, "forehand", none, none, false⟩], 1, 0,
          none, none, none⟩, none, none,
          some ⟨1, 1, 0, "forehand", none, none, false⟩⟩
        ⟨2, 2, 1, "forehand", some "out", none, false⟩).rallies = [] ∧
     ∃ r', (AnalyticsEngine.stepShot
        ⟨[], some ⟨0, [⟨1, 1, 0, "forehand", none, none, false⟩], 1, 0,
          none, none, none⟩, none, none,
          some ⟨1, 1, 0, "forehand", none, none, false⟩⟩
        ⟨2, 2, 1, "forehand", some "out", none, false⟩).current = some r' ∧
       r'.shots = [⟨1, 1, 0, "forehand", none, none, false⟩]
           ++ [⟨2, 2, 1, "forehand", some "out", none, false⟩] ∧
       r'.end_time
         = some (⟨2, 2, 1, "forehand", some "out", none, false⟩ :
             Shot).timestamp ∧
       (("out" : String) = "winner" ∨ ("out" : String) = "ace" →
         r'.winner_player
           = some (⟨2, 2, 1, "forehand", some "out", none, false⟩ :
               Shot).player_number ∧
         r'.ended_by = some "winner") ∧
       (("out" : String) = "out" ∨ ("out" : String) = "net" →
         r'.winner_player
           = some (if (⟨2, 2, 1, "forehand", some "out", none, false⟩ :
               Shot).player_number = 1 then 2 else 1) ∧
         r'.ended_by = some "error")) := by
  constructor
  · rfl
  · have h := c2_amended_terminal_records_but_does_not_close
      ⟨[], some ⟨0, [⟨1, 1, 0, "forehand", none, none, false⟩], 1, 0,
        none, none, none⟩, none, none,
        some ⟨1, 1, 0, "forehand", none, none, false⟩⟩
      ⟨0, [⟨1, 1, 0, "forehand", none, none, false⟩], 1, 0,
        none, none, none⟩
      ⟨2, 2, 1, "forehand", some "out", none, false⟩ "out"
      rfl rfl (by left; norm_num) rfl (by left; rfl)
    exact h.1

/-- Claim C3: for every input shot list, both rally segmenters conserve
shots: the `shot_count`s of the produced rallies sum to the number of
input shots, and (for the enhanced engine, which retains `shot_ids`) the
concatenated `shot_ids` of the rallies are exactly the input shots' ids in
order — every shot is assigned to exactly one rally. -/
theorem c3_every_shot_in_exactly_one_rally (shots : List Shot) :
    AnalyticsEngine.sumShotCount (AnalyticsEngine.identify_rallies shots)
      = shots.length ∧
    EnhancedAnalyticsEngine.sumShotCount
      (EnhancedAnalyticsEngine.identify_rallies shots) = shots.length ∧
    EnhancedAnalyticsEngine.allShotIds
      (EnhancedAnalyticsEngine.identify_rallies shots)
      = shots.map Shot.shot_id :=
  ⟨AnalyticsEngine.identify_rallies_count shots,
   (EnhancedAnalyticsEngine.e_identify_rallies_count shots).1,
   (EnhancedAnalyticsEngine.e_identify_rallies_count shots).2⟩

/-- Claim C4: rally segmentation is deterministic — both segmenters are
pure functions of the input shot list (the embedding is a total function;
the Python source reads only shot attributes, never mutates its inputs,
and uses no randomness or ambient state), so identical inputs give
identical outputs. -/
theorem c4_rally_segmentation_deterministic (s1 s2 : List Shot)
    (h : s1 = s2) :
    AnalyticsEngine.identify_rallies s1
        = AnalyticsEngine.identify_rallies s2 ∧
    EnhancedAnalyticsEngine.identify_rallies s1
        = EnhancedAnalyticsEngine.identify_rallies s2 := by
  rw [h]
  exact ⟨rfl, rfl⟩

/-- Concrete instance of Claim C4 at a one-shot input. -/
theorem c4_witness :
    ([⟨1, 1, 0, "forehand", none, none, false⟩] :
        List Shot) = [⟨1, 1, 0, "forehand", none, none, false⟩] ∧
    (AnalyticsEngine.identify_rallies
        [⟨1, 1, 0, "forehand", none, none, false⟩]
      = AnalyticsEngine.identify_rallies
        [⟨1, 1, 0, "forehand", none, none, false⟩] ∧
    EnhancedAnalyticsEngine.identify_rallies
        [⟨1, 1, 0, "forehand", none, none, false⟩]
      = EnhancedAnalyticsEngine.identify_rallies
        [⟨1, 1, 0, "forehand", none, none, false⟩]) :=
  ⟨rfl, c4_rally_segmentation_deterministic _ _ rfl⟩

/-- Claim C5: player-number stability — once a `track_id` is present in
`player_mapping` with number `n`, it is still mapped to `n` after any
further sequence of frames (frames never delete or overwrite mapping
entries; stale-track eviction leaves `player_mapping` untouched), and a
subsequent `_assign_player_number` call for that `track_id` returns `n`
regardless of the bounding box's side of the frame. -/
theorem c5_player_number_stable (st : EnhancedPlayerTracker.TrackerState)
    (frames : List EnhancedPlayerTracker.PFrame) (tid n : ℕ)
    (b : EnhancedPlayerTracker.BBox) (w : ℚ)
    (h : alookup st.player_mapping tid = some n) :
    alookup (EnhancedPlayerTracker.runTracker st frames).player_mapping tid
        = some n ∧
    (EnhancedPlayerTracker.assign_player_number
        (EnhancedPlayerTracker.runTracker st frames).player_mapping
        tid b w).1 = n := by
  have hm := EnhancedPlayerTracker.runTracker_mapping frames st tid n h
  exact ⟨hm, EnhancedPlayerTracker.assign_found _ _ _ _ _ hm⟩

/-- Concrete instance of Claim C5: track 1 was assigned player 1; after a
frame whose box for track 1 lies entirely in the right half of a
100-pixel-wide frame, the mapping still reports player 1, and so does
`_assign_player_number` for a right-half box. -/
theorem c5_witness :
    alookup
      ((⟨[], [(1, 1)], 2, []⟩ :
        EnhancedPlayerTracker.TrackerState)).player_mapping 1 = some 1 ∧
    (alookup (EnhancedPlayerTracker.runTracker ⟨[], [(1, 1)], 2, []⟩
        [⟨2, 100, [⟨0, some 1, ⟨90, 0, 100, 40⟩, 1⟩]⟩]).player_mapping 1
        = some 1 ∧
     (EnhancedPlayerTracker.assign_player_number
        (EnhancedPlayerTracker.runTracker ⟨[], [(1, 1)], 2, []⟩
          [⟨2, 100, [⟨0, some 1, ⟨90, 0, 100, 40⟩, 1⟩]⟩]).player_mapping
        1 ⟨90, 0, 100, 40⟩ 100).1 = 1) :=
  ⟨rfl, c5_player_number_stable ⟨[], [(1, 1)], 2, []⟩
    [⟨2, 100, [⟨0, some 1, ⟨90, 0, 100, 40⟩, 1⟩]⟩] 1 1
    ⟨90, 0, 100, 40⟩ 100 rfl⟩

/-- Claim C6 counterexample: stale-track eviction does NOT preserve the
accumulated statistics.  Track 1 (mapped to player 1) accumulates 0.25 m
of distance and a 0.5 m/s speed sample over two frames; a third frame at
t=2 with no detections evicts it (silent for 1.5 s > 1 s), deleting its
history from `tracks` while `player_mapping` keeps the entry — and
`get_player_stats`, which skips mapped tracks absent from `tracks`,
afterwards reports all zeros instead of the accumulated values. -/
theorem c6_eviction_loses_stats_counterexample :
    EnhancedPlayerTracker.get_player_stats
      (EnhancedPlayerTracker.runTracker EnhancedPlayerTracker.initTracker
        [ ⟨0, 100, [⟨0, some 1, ⟨0, 0, 20, 40⟩, 9/10⟩]⟩,
          ⟨1/2, 100, [⟨0, some 1, ⟨6, 8, 20, 40⟩, 9/10⟩]⟩ ]) 1
      = ⟨1/4, 1/2, 1/2⟩ ∧
    EnhancedPlayerTracker.get_player_stats
      (EnhancedPlayerTracker.runTracker EnhancedPlayerTracker.initTracker
        [ ⟨0, 100, [⟨0, some 1, ⟨0, 0, 20, 40⟩, 9/10⟩]⟩,
          ⟨1/2, 100, [⟨0, some 1, ⟨6, 8, 20, 40⟩, 9/10⟩]⟩,
          ⟨2, 100, []⟩ ]) 1
      = ⟨0, 0, 0⟩ ∧
    alookup
      (EnhancedPlayerTracker.runTracker EnhancedPlayerTracker.initTracker
        [ ⟨0, 100, [⟨0, some 1, ⟨0, 0, 20, 40⟩, 9/10⟩]⟩,
          ⟨1/2, 100, [⟨0, some 1, ⟨6, 8, 20, 40⟩, 9/10⟩]⟩,
          ⟨2, 100, []⟩ ]).tracks 1 = none ∧
    alookup
      (EnhancedPlayerTracker.runTracker EnhancedPlayerTracker.initTracker
        [ ⟨0, 100, [⟨0, some 1, ⟨0, 0, 20, 40⟩, 9/10⟩]⟩,
          ⟨1/2, 100, [⟨0, some 1, ⟨6, 8, 20, 40⟩, 9/10⟩]⟩,
          ⟨2, 100, []⟩ ]).player_mapping 1 = some 1 := by
  have h : ((25 : ℤ).toNat).sqrt = 5 := by
    rw [show (25 : ℤ).toNat = 25 from by simp]
    norm_num
  norm_num [EnhancedPlayerTracker.get_player_stats,
    EnhancedPlayerTracker.statsStep, EnhancedPlayerTracker.pyMax,
    EnhancedPlayerTracker.runTracker, EnhancedPlayerTracker.track,
    EnhancedPlayerTracker.processBox, EnhancedPlayerTracker.evictStale,
    EnhancedPlayerTracker.evictOne, EnhancedPlayerTracker.get_bbox_center,
    EnhancedPlayerTracker.calculate_speed,
    EnhancedPlayerTracker.update_distance,
    EnhancedPlayerTracker.assign_player_number, alookup, aset, adel,
    ratSqrt, EnhancedPlayerTracker.initTracker, h, List.filterMap_cons,
    List.filterMap_nil]

/-- Claim C6, amended to what the code does: after eviction the track's
accumulated statistics are NOT available to `get_player_stats` — the
aggregation only reads tracks still present in `tracks` (line 278's
`track_id in self.tracks` test) and skips every mapped `track_id` whose
history was deleted, so when every track mapped to a player has been
evicted the player's reported statistics are all zeros. -/
theorem c6_amended_stats_read_only_live_tracks
    (st : EnhancedPlayerTracker.TrackerState) (pn : ℕ)
    (h : ∀ p ∈ st.player_mapping, p.2 = pn →
      alookup st.tracks p.1 = none) :
    EnhancedPlayerTracker.get_player_stats st pn = ⟨0, 0, 0⟩ := by
  unfold EnhancedPlayerTracker.get_player_stats
  rw [EnhancedPlayerTracker.foldl_statsStep_skip st pn _ _ h]
  rfl

/-- Concrete instance of the amended Claim C6 theorem: a state whose
mapping holds track 1 ↦ player 1 but whose `tracks` dict is empty reports
all-zero statistics for player 1. -/
theorem c6_amended_witness :
    (∀ p ∈ ((⟨[], [(1, 1)], 2, []⟩ :
        EnhancedPlayerTracker.TrackerState)).player_mapping, p.2 = 1 →
      alookup ((⟨[], [(1, 1)], 2, []⟩ :
        EnhancedPlayerTracker.TrackerState)).tracks p.1 = none) ∧
    EnhancedPlayerTracker.get_player_stats ⟨[], [(1, 1)], 2, []⟩ 1
      = ⟨0, 0, 0⟩ := by
  have hp : ∀ p ∈ ((⟨[], [(1, 1)], 2, []⟩ :
      EnhancedPlayerTracker.TrackerState)).player_mapping, p.2 = 1 →
      alookup ((⟨[], [(1, 1)], 2, []⟩ :
        EnhancedPlayerTracker.TrackerState)).tracks p.1 = none := by
    intro p hp _
    simp at hp
    subst hp
    rfl
  exact ⟨hp, c6_amended_stats_read_only_live_tracks _ 1 hp⟩

/-- Claim C8: highlight candidate windows use the fixed per-event padding
(winner −5s/+2s, ace −2s/+3s, smash −2s/+2s, floored at 0); the output of
`identify_highlights` is sorted by start time; and the merge pass joins
overlapping or near-adjacent candidates: `[10,13]` (winner) and
`[13.5,15]` (ace) become the single clip `[10,15]` with concatenated
description, while `[10,13]` and `[20,22]` stay separate. -/
theorem c8_highlight_padding_and_merge :
    (∀ s : HighlightsGenerator.ShotDict,
      ∀ c ∈ HighlightsGenerator.shotCandidates s,
       (c.highlight_type = "winner" →
          c.start_time = max 0 (s.timestamp.getD 0 - 5) ∧
          c.end_time = s.timestamp.getD 0 + 2) ∧
       (c.highlight_type = "ace" →
          c.start_time = max 0 (s.timestamp.getD 0 - 2) ∧
          c.end_time = s.timestamp.getD 0 + 3) ∧
       (c.highlight_type = "smash" →
          c.start_time = max 0 (s.timestamp.getD 0 - 2) ∧
          c.end_time = s.timestamp.getD 0 + 2)) ∧
    (∀ shots : List HighlightsGenerator.ShotDict,
      List.Pairwise (· ≤ ·)
        ((HighlightsGenerator.identify_highlights shots).map
          HighlightsGenerator.HighlightClip.start_time)) ∧
    HighlightsGenerator.mergeClips (HighlightsGenerator.sortClips
      [⟨10, 13, "winner", "Winner by Player 1", some 1⟩,
       ⟨27/2, 15, "ace", "Ace by Player 2", some 2⟩])
      = [⟨10, 15, "winner", "Winner by Player 1 | Ace by Player 2",
          some 1⟩] ∧
    HighlightsGenerator.mergeClips (HighlightsGenerator.sortClips
      [⟨10, 13, "winner", "Winner by Player 1", some 1⟩,
       ⟨20, 22, "smash", "Smash by Player 2", some 2⟩])
      = [⟨10, 13, "winner", "Winner by Player 1", some 1⟩,
         ⟨20, 22, "smash", "Smash by Player 2", some 2⟩] := by
  refine ⟨?_, HighlightsGenerator.identify_highlights_sorted, ?_, ?_⟩
  · intro s c hc
    unfold HighlightsGenerator.shotCandidates at hc
    dsimp only at hc
    simp only [List.mem_append] at hc
    rcases hc with (hc | hc) | hc <;> split at hc <;>
      simp only [List.mem_singleton, List.not_mem_nil] at hc <;>
      first
      | exact absurd hc (by simp)
      | (subst hc
         refine ⟨?_, ?_, ?_⟩ <;> intro ht <;>
           first
           | exact ⟨rfl, rfl⟩
           | simp at ht)
  · unfold HighlightsGenerator.sortClips
    rw [List.mergeSort_of_sorted (by norm_num)]
    norm_num [HighlightsGenerator.mergeClips, HighlightsGenerator.mergeStep]
    rfl
  · unfold HighlightsGenerator.sortClips
    rw [List.mergeSort_of_sorted (by norm_num)]
    norm_num [HighlightsGenerator.mergeClips, HighlightsGenerator.mergeStep]

/-- Concrete instance of the padding part of Claim C8: a winner shot at
t=15 yields the candidate window [10, 17]. -/
theorem c8_witness :
    ((⟨max 0 ((15 : ℚ) - 5), 15 + 2, "winner",
        "Winner by Player " ++ HighlightsGenerator.playerLabel (some 1),
        some 1⟩ : HighlightsGenerator.HighlightClip)
      ∈ HighlightsGenerator.shotCandidates ⟨some 1, some 15, some "forehand",
          some "winner"⟩) ∧
    ((⟨max 0 ((15 : ℚ) - 5), 15 + 2, "winner",
        "Winner by Player " ++ HighlightsGenerator.playerLabel (some 1),
        some 1⟩ : HighlightsGenerator.HighlightClip).highlight_type
        = "winner" →
      (⟨max 0 ((15 : ℚ) - 5), 15 + 2, "winner",
        "Winner by Player " ++ HighlightsGenerator.playerLabel (some 1),
        some 1⟩ : HighlightsGenerator.HighlightClip).start_time
        = max 0 ((⟨some 1, some 15, some "forehand", some "winner"⟩ :
            HighlightsGenerator.ShotDict).timestamp.getD 0 - 5) ∧
      (⟨max 0 ((15 : ℚ) - 5), 15 + 2, "winner",
        "Winner by Player " ++ HighlightsGenerator.playerLabel (some 1),
        some 1⟩ : HighlightsGenerator.HighlightClip).end_time
        = (⟨some 1, some 15, some "forehand", some "winner"⟩ :
            HighlightsGenerator.ShotDict).timestamp.getD 0 + 2) := by
  have hmem : (⟨max 0 ((15 : ℚ) - 5), 15 + 2, "winner",
      "Winner by Player " ++ HighlightsGenerator.playerLabel (some 1),
      some 1⟩ : HighlightsGenerator.HighlightClip)
      ∈ HighlightsGenerator.shotCandidates ⟨some 1, some 15, some "forehand",
          some "winner"⟩ := by
    unfold HighlightsGenerator.shotCandidates
    simp [HighlightsGenerator.playerLabel]
  exact ⟨hmem,
    (c8_highlight_padding_and_merge.1 _ _ hmem).1⟩

/-- Claim C9: bounded trajectory history — after any sequence of frames
from a fresh tracker, `trajectory_history` holds at most 60 entries
(each `track` call appends one detection and pops the oldest entry
whenever the length would exceed 60). -/
theorem c9_trajectory_history_bounded (hasModel : Bool)
    (frames : List EnhancedBallTracker.FrameObs) :
    (EnhancedBallTracker.runBallTracker
      (EnhancedBallTracker.initBallTracker hasModel)
      frames).trajectory_history.length ≤ 60 :=
  EnhancedBallTracker.runBallTracker_history frames _
    (by simp [EnhancedBallTracker.initBallTracker])

/-- Claim C10: `get_detection_rate` never divides by zero and stays in
[0, 1]: from a fresh tracker, after any frame sequence
`detection_count ≤ total_frames`, the rate is 0 when no frames were
processed and `detection_count / total_frames` ∈ [0,1] otherwise; and
each further `track` call increments `total_frames` by exactly one and
`detection_count` by at most one. -/
theorem c10_detection_rate_safe (hasModel : Bool)
    (frames : List EnhancedBallTracker.FrameObs) :
    ((EnhancedBallTracker.runBallTracker
        (EnhancedBallTracker.initBallTracker hasModel)
        frames).detection_count
      ≤ (EnhancedBallTracker.runBallTracker
        (EnhancedBallTracker.initBallTracker hasModel)
        frames).total_frames) ∧
    (0 ≤ EnhancedBallTracker.get_detection_rate
        (EnhancedBallTracker.runBallTracker
          (EnhancedBallTracker.initBallTracker hasModel) frames) ∧
     EnhancedBallTracker.get_detection_rate
        (EnhancedBallTracker.runBallTracker
          (EnhancedBallTracker.initBallTracker hasModel) frames) ≤ 1) ∧
    ((EnhancedBallTracker.runBallTracker
        (EnhancedBallTracker.initBallTracker hasModel)
        frames).total_frames = 0 →
      EnhancedBallTracker.get_detection_rate
        (EnhancedBallTracker.runBallTracker
          (EnhancedBallTracker.initBallTracker hasModel) frames) = 0) ∧
    (∀ obs : EnhancedBallTracker.FrameObs,
      (EnhancedBallTracker.track
        (EnhancedBallTracker.runBallTracker
          (EnhancedBallTracker.initBallTracker hasModel) frames)
        obs).1.total_frames
        = (EnhancedBallTracker.runBallTracker
            (EnhancedBallTracker.initBallTracker hasModel)
            frames).total_frames + 1) ∧
    (∀ obs : EnhancedBallTracker.FrameObs,
      (EnhancedBallTracker.track
        (EnhancedBallTracker.runBallTracker
          (EnhancedBallTracker.initBallTracker hasModel) frames)
        obs).1.detection_count
        = (EnhancedBallTracker.runBallTracker
            (EnhancedBallTracker.initBallTracker hasModel)
            frames).detection_count ∨
      (EnhancedBallTracker.track
        (EnhancedBallTracker.runBallTracker
          (EnhancedBallTracker.initBallTracker hasModel) frames)
        obs).1.detection_count
        = (EnhancedBallTracker.runBallTracker
            (EnhancedBallTracker.initBallTracker hasModel)
            frames).detection_count + 1) := by
  have hcounts := EnhancedBallTracker.runBallTracker_counts frames
    (EnhancedBallTracker.initBallTracker hasModel)
    (by simp [EnhancedBallTracker.initBallTracker])
  refine ⟨hcounts, EnhancedBallTracker.rate_bounds _ hcounts, ?_, ?_, ?_⟩
  · intro h0
    unfold EnhancedBallTracker.get_detection_rate
    rw [if_pos h0]
  · intro obs
    exact EnhancedBallTracker.track_total_frames _ obs
  · intro obs
    exact EnhancedBallTracker.track_detection_count _ obs

/-- Concrete instance of Claim C10 at the empty frame sequence: no frames
processed, the rate is 0. -/
theorem c10_witness :
    (EnhancedBallTracker.runBallTracker
      (EnhancedBallTracker.initBallTracker true) []).total_frames = 0 ∧
    EnhancedBallTracker.get_detection_rate
      (EnhancedBallTracker.runBallTracker
        (EnhancedBallTracker.initBallTracker true) []) = 0 :=
  ⟨rfl, (c10_detection_rate_safe true []).2.2.1 rfl⟩
